import Mathlib

/-!
Shallow embedding of TinyGo's precise GC object scanner
(src/src/runtime/gc_precise.go) and proofs about it.

The scanner decodes a raw layout word into one of three layouts (unknown,
inline, external) and then classifies object words one by one as pointer or
non-pointer.  Machine integers (Go `uintptr`) are modelled as `Nat`; the
native word width is an explicit parameter `wordBits` (Go
`unsafe.Sizeof(layout) * 8`).  Memory is modelled as a read-only map from
addresses to values, with the bound that a word read fits the native word
and a byte read fits a byte, matching `uintptr` and `uint8` reads in Go.
`runtimePanic` is modelled as the error side of `Except`.
-/

namespace TinyGoGC

/-- The two `runtimePanic` messages reachable from the scanner code. -/
inductive RuntimeError where
  | objectScannerMustStartAtHead
  | unknownPointerSize
deriving DecidableEq, Repr

/-- Read-only memory as seen through Go pointer dereferences: `readWord a`
models `*(*uintptr)(unsafe.Pointer(a))` and `readByte a` models
`*(*uint8)(unsafe.Pointer(a))`, with the corresponding value bounds. -/
structure Mem (wordBits : Nat) where
  readWord : Nat → Nat
  readByte : Nat → Nat
  readWord_lt : ∀ a, readWord a < 2 ^ wordBits
  readByte_lt : ∀ a, readByte a < 256

/-- Go struct `gcObjectScanner`.  `bitmapAddr` is `none` for the Go `nil`
pointer, `some a` for a pointer to address `a`. -/
structure gcObjectScanner where
  index : Nat
  size : Nat
  bitmap : Nat
  bitmapAddr : Option Nat
deriving DecidableEq, Repr

/-- The `switch layoutBits` statement in `newGCObjectScanner`: the size
field width for each supported native word width, `none` for the
`runtimePanic("unknown pointer size")` default branch. -/
def sizeFieldBitsFor (layoutBits : Nat) : Option Nat :=
  match layoutBits with
  | 16 => some 4
  | 32 => some 5
  | 64 => some 6
  | _ => none

/-- Go `func newGCObjectScanner(block gcBlock) gcObjectScanner`.
`gcAsserts` is the debug-assertion build flag (defined outside this file's
source, in the surrounding runtime); `isHead` models `block ==
block.findHead()`; `blockAddr` models `block.address()`.  Go zero values
give `index = 0`, `bitmap = 0`, `bitmapAddr = nil` for fields not assigned
in a branch. -/
def newGCObjectScanner (gcAsserts isHead : Bool) (wordBits : Nat)
    (mem : Mem wordBits) (blockAddr : Nat) :
    Except RuntimeError gcObjectScanner :=
  if gcAsserts && !isHead then
    Except.error RuntimeError.objectScannerMustStartAtHead
  else
    let layout := mem.readWord blockAddr
    if layout = 0 then
      -- Unknown layout. Assume all words in the object could be pointers.
      Except.ok { index := 0, size := 1, bitmap := 1, bitmapAddr := none }
    else if layout % 2 = 1 then
      -- Layout is stored directly in the integer value.
      match sizeFieldBitsFor wordBits with
      | none => Except.error RuntimeError.unknownPointerSize
      | some sizeFieldBits =>
          Except.ok { index := 0,
                      size := (layout >>> 1) &&& (1 <<< sizeFieldBits - 1),
                      bitmap := layout >>> (1 + sizeFieldBits),
                      bitmapAddr := none }
    else
      -- Layout is stored separately in a global object.
      Except.ok { index := 0,
                  size := mem.readWord layout,
                  bitmap := 0,
                  bitmapAddr := some (layout + wordBits / 8) }

/-- Go `func (scanner *gcObjectScanner) pointerFree() bool`. -/
def pointerFree (scanner : gcObjectScanner) : Bool :=
  if scanner.bitmapAddr.isSome then
    -- if bitmapAddr is set, we know that there are at least some pointers
    false
  else
    -- If the bitmap is zero, there are definitely no pointers in the object.
    scanner.bitmap == 0

/-- Go `func (scanner *gcObjectScanner) nextIsPointer(word, parent,
addrOfWord uintptr) bool`.  Returns the classification together with the
updated scanner (the method mutates `scanner.index` through the receiver
pointer).  `scanner.index++` on a `uintptr` wraps at `2 ^ wordBits`. -/
def nextIsPointer (isOnHeap : Nat → Bool) (wordBits : Nat)
    (mem : Mem wordBits) (scanner : gcObjectScanner)
    (word parent addrOfWord : Nat) : Bool × gcObjectScanner :=
  let index := scanner.index
  let incremented := (scanner.index + 1) % 2 ^ wordBits
  let scanner1 : gcObjectScanner :=
    { scanner with index := if incremented = scanner.size then 0 else incremented }
  if !isOnHeap word then
    -- Definitely isn't a pointer.
    (false, scanner1)
  else
    match scanner1.bitmapAddr with
    | some bitmapAddr =>
        if (mem.readByte (bitmapAddr + index / 8) >>> (index % 8)) &&& 1 = 0 then
          (false, scanner1)
        else
          (true, scanner1)
    | none =>
        if (scanner1.bitmap >>> index) &&& 1 = 0 then
          -- not a pointer!
          (false, scanner1)
        else
          -- Probably a pointer.
          (true, scanner1)

/-- The scanner state after `n` calls to `nextIsPointer`, fed word values
`words 0, words 1, ...` in order.  `parent` and `addrOfWord` are fixed at 0
(they are unused by the implementation, proved separately). -/
def scanState (isOnHeap : Nat → Bool) (wordBits : Nat) (mem : Mem wordBits)
    (words : Nat → Nat) (scanner : gcObjectScanner) : Nat → gcObjectScanner
  | 0 => scanner
  | n + 1 =>
      (nextIsPointer isOnHeap wordBits mem
        (scanState isOnHeap wordBits mem words scanner n) (words n) 0 0).2

/-- The result of the `i`-th (0-indexed) call to `nextIsPointer` in the
call sequence of `scanState`. -/
def scanResult (isOnHeap : Nat → Bool) (wordBits : Nat) (mem : Mem wordBits)
    (words : Nat → Nat) (scanner : gcObjectScanner) (i : Nat) : Bool :=
  (nextIsPointer isOnHeap wordBits mem
    (scanState isOnHeap wordBits mem words scanner i) (words i) 0 0).1

/-- The new cursor value `nextIsPointer` writes back: `scanner.index++`
(wrapping at the word width) followed by the reset to 0 on reaching
`scanner.size`. -/
def nextIndex (wordBits size i : Nat) : Nat :=
  if (i + 1) % 2 ^ wordBits = size then 0 else (i + 1) % 2 ^ wordBits

theorem nextIsPointer_snd (isOnHeap : Nat → Bool) (wordBits : Nat)
    (mem : Mem wordBits) (scanner : gcObjectScanner)
    (word parent addrOfWord : Nat) :
    (nextIsPointer isOnHeap wordBits mem scanner word parent addrOfWord).2 =
      { scanner with index := nextIndex wordBits scanner.size scanner.index } := by
  unfold nextIsPointer nextIndex
  cases hw : isOnHeap word
  · rfl
  · cases h : scanner.bitmapAddr
    · simp only [h]
      split
      · rfl
      · split <;> rfl
    · simp only [h]
      split
      · rfl
      · split <;> rfl

theorem testBit_eq_shiftRight_mod (n i : Nat) :
    Nat.testBit n i = decide ((n >>> i) % 2 = 1) := by
  rw [Nat.testBit_to_div_mod, Nat.shiftRight_eq_div_pow]

theorem nextIsPointer_fst (isOnHeap : Nat → Bool) (wordBits : Nat)
    (mem : Mem wordBits) (scanner : gcObjectScanner)
    (word parent addrOfWord : Nat) :
    (nextIsPointer isOnHeap wordBits mem scanner word parent addrOfWord).1 =
      (isOnHeap word &&
        match scanner.bitmapAddr with
        | some bitmapAddr =>
            Nat.testBit (mem.readByte (bitmapAddr + scanner.index / 8))
              (scanner.index % 8)
        | none => Nat.testBit scanner.bitmap scanner.index) := by
  cases hw : isOnHeap word
  · simp [nextIsPointer, hw]
  · cases h : scanner.bitmapAddr
    · rcases Nat.mod_two_eq_zero_or_one (scanner.bitmap >>> scanner.index) with
        hz | hz
      · have ht : Nat.testBit scanner.bitmap scanner.index = false := by
          simp [testBit_eq_shiftRight_mod, hz]
        simp [nextIsPointer, hw, h, Nat.and_one_is_mod, hz, ht]
      · have ht : Nat.testBit scanner.bitmap scanner.index = true := by
          simp [testBit_eq_shiftRight_mod, hz]
        simp [nextIsPointer, hw, h, Nat.and_one_is_mod, hz, ht]
    · rename_i addr
      rcases Nat.mod_two_eq_zero_or_one
          (mem.readByte (addr + scanner.index / 8) >>> (scanner.index % 8)) with
        hz | hz
      · have ht : Nat.testBit (mem.readByte (addr + scanner.index / 8))
            (scanner.index % 8) = false := by
          simp [testBit_eq_shiftRight_mod, hz]
        simp [nextIsPointer, hw, h, Nat.and_one_is_mod, hz, ht]
      · have ht : Nat.testBit (mem.readByte (addr + scanner.index / 8))
            (scanner.index % 8) = true := by
          simp [testBit_eq_shiftRight_mod, hz]
        simp [nextIsPointer, hw, h, Nat.and_one_is_mod, hz, ht]

theorem nextIndex_eq_mod (wordBits size i : Nat) (hi : i < size)
    (hsize : size ≤ 2 ^ wordBits) :
    nextIndex wordBits size i = (i + 1) % size := by
  unfold nextIndex
  have hle : i + 1 ≤ size := hi
  rcases Nat.lt_or_ge (i + 1) (2 ^ wordBits) with hlt | hge
  · rw [Nat.mod_eq_of_lt hlt]
    rcases Nat.eq_or_lt_of_le hle with heq | hlt2
    · rw [if_pos heq, heq, Nat.mod_self]
    · rw [if_neg (Nat.ne_of_lt hlt2), Nat.mod_eq_of_lt hlt2]
  · have h1 : i + 1 = 2 ^ wordBits := Nat.le_antisymm (Nat.le_trans hle hsize) hge
    have h2 : size = 2 ^ wordBits := Nat.le_antisymm hsize (h1 ▸ hle)
    have hp : 0 < 2 ^ wordBits := Nat.pos_pow_of_pos wordBits (by decide)
    rw [h1, Nat.mod_self, h2, if_neg (Nat.ne_of_lt hp), Nat.mod_self]

theorem scanState_eq (isOnHeap : Nat → Bool) (wordBits : Nat)
    (mem : Mem wordBits) (words : Nat → Nat) (scanner : gcObjectScanner)
    (hidx : scanner.index = 0) (hpos : 0 < scanner.size)
    (hsize : scanner.size ≤ 2 ^ wordBits) (n : Nat) :
    scanState isOnHeap wordBits mem words scanner n =
      { scanner with index := n % scanner.size } := by
  induction n with
  | zero =>
      rw [scanState, Nat.zero_mod, ← hidx]
  | succ n ih =>
      rw [scanState, ih, nextIsPointer_snd]
      dsimp only
      rw [nextIndex_eq_mod wordBits scanner.size (n % scanner.size)
        (Nat.mod_lt n hpos) hsize, Nat.mod_add_mod]

theorem scanResult_eq (isOnHeap : Nat → Bool) (wordBits : Nat)
    (mem : Mem wordBits) (words : Nat → Nat) (scanner : gcObjectScanner)
    (hidx : scanner.index = 0) (hpos : 0 < scanner.size)
    (hsize : scanner.size ≤ 2 ^ wordBits) (i : Nat) :
    scanResult isOnHeap wordBits mem words scanner i =
      (isOnHeap (words i) &&
        match scanner.bitmapAddr with
        | some bitmapAddr =>
            Nat.testBit (mem.readByte (bitmapAddr + (i % scanner.size) / 8))
              ((i % scanner.size) % 8)
        | none => Nat.testBit scanner.bitmap (i % scanner.size)) := by
  rw [scanResult, scanState_eq isOnHeap wordBits mem words scanner hidx hpos hsize,
    nextIsPointer_fst]

/-! Concrete environments used to instantiate the theorems below. -/

/-- Heap-membership predicate that accepts every value. -/
def allHeap : Nat → Bool := fun _ => true

/-- Heap-membership predicate that rejects every value. -/
def noHeap : Nat → Bool := fun _ => false

/-- Word-value sequence that is constantly 0. -/
def zeroWords : Nat → Nat := fun _ => 0

/-- 64-bit memory whose layout word is the inline value 647 =
1 ||| (3 <<< 1) ||| (5 <<< 7). -/
def memInline647 : Mem 64 where
  readWord := fun _ => 647
  readByte := fun _ => 0
  readWord_lt := fun _ => show (647 : Nat) < 2 ^ 64 by decide
  readByte_lt := fun _ => show (0 : Nat) < 256 by decide

/-- Claim C1: for every odd raw layout value v decoded on a native word
width W in {16,32,64} with size-field width s in {4,5,6} respectively, the
decoder produces size = (v >>> 1) &&& (2^s - 1) and bitmap = v >>> (1+s),
and the i-th classify call (0-indexed, fresh scanner, in-heap word values)
returns bit (i % size) of that bitmap. -/
theorem claim_C1_inline_decode_and_classify
    (wordBits s : Nat)
    (hws : (wordBits = 16 ∧ s = 4) ∨ (wordBits = 32 ∧ s = 5) ∨
      (wordBits = 64 ∧ s = 6))
    (isHead : Bool) (mem : Mem wordBits) (blockAddr : Nat)
    (isOnHeap : Nat → Bool) (words : Nat → Nat)
    (v : Nat) (hv : mem.readWord blockAddr = v) (hodd : v % 2 = 1)
    (hpos : 0 < (v >>> 1) &&& (2 ^ s - 1))
    (hheap : ∀ i, isOnHeap (words i) = true) :
    newGCObjectScanner false isHead wordBits mem blockAddr =
      Except.ok { index := 0, size := (v >>> 1) &&& (2 ^ s - 1),
                  bitmap := v >>> (1 + s), bitmapAddr := none } ∧
    ∀ i, scanResult isOnHeap wordBits mem words
        { index := 0, size := (v >>> 1) &&& (2 ^ s - 1),
          bitmap := v >>> (1 + s), bitmapAddr := none } i =
      Nat.testBit (v >>> (1 + s)) (i % ((v >>> 1) &&& (2 ^ s - 1))) := by
  have hv0 : v ≠ 0 := by
    intro h0
    rw [h0] at hodd
    exact absurd hodd (by decide)
  have hsf : sizeFieldBitsFor wordBits = some s := by
    rcases hws with ⟨hw, hs⟩ | ⟨hw, hs⟩ | ⟨hw, hs⟩ <;> subst hw <;> subst hs <;> rfl
  have hsize : (v >>> 1) &&& (2 ^ s - 1) ≤ 2 ^ wordBits := by
    have h1 : (v >>> 1) &&& (2 ^ s - 1) ≤ 2 ^ s - 1 := Nat.and_le_right
    rcases hws with ⟨hw, hs⟩ | ⟨hw, hs⟩ | ⟨hw, hs⟩ <;> subst hw <;> subst hs <;>
      exact Nat.le_trans h1 (by decide)
  constructor
  · simp [newGCObjectScanner, hv, hv0, hodd, hsf, Nat.one_shiftLeft]
  · intro i
    rw [scanResult_eq _ _ _ _ _ rfl hpos hsize i]
    simp [hheap i]

/-- Witness for C1: layout value 647 on a 64-bit word decodes to size 3,
bitmap 0b101, and four consecutive in-heap classify calls return
true, false, true, true. -/
theorem claim_C1_witness :
    newGCObjectScanner false true 64 memInline647 0 =
      Except.ok { index := 0, size := 3, bitmap := 5, bitmapAddr := none } ∧
    scanResult allHeap 64 memInline647 zeroWords
      { index := 0, size := 3, bitmap := 5, bitmapAddr := none } 0 = true ∧
    scanResult allHeap 64 memInline647 zeroWords
      { index := 0, size := 3, bitmap := 5, bitmapAddr := none } 1 = false ∧
    scanResult allHeap 64 memInline647 zeroWords
      { index := 0, size := 3, bitmap := 5, bitmapAddr := none } 2 = true ∧
    scanResult allHeap 64 memInline647 zeroWords
      { index := 0, size := 3, bitmap := 5, bitmapAddr := none } 3 = true := by
  have h := claim_C1_inline_decode_and_classify 64 6
    (Or.inr (Or.inr ⟨rfl, rfl⟩)) true memInline647 0 allHeap zeroWords 647 rfl
    (by decide) (by decide) (fun i => rfl)
  exact ⟨h.1, (h.2 0).trans (by decide), (h.2 1).trans (by decide),
    (h.2 2).trans (by decide), (h.2 3).trans (by decide)⟩

/-- 64-bit memory with an external layout descriptor: the layout word at
address 0 holds the even nonzero address 2048; the word at 2048 holds the
size 8; the byte at 2056 holds the bitmap 0b101. -/
def memExternal : Mem 64 where
  readWord := fun a => if a = 0 then 2048 else if a = 2048 then 8 else 0
  readByte := fun a => if a = 2056 then 5 else 0
  readWord_lt := fun a => by
    dsimp only
    split
    · decide
    · split <;> decide
  readByte_lt := fun a => by
    dsimp only
    split <;> decide

/-- Claim C2: for every even nonzero raw layout value p, the decoder reads
size from the word at address p and points the bitmap at p + wordBits/8,
and the i-th classify call on a fresh scanner with in-heap word values
returns bit ((i % size) % 8) of the byte at p + wordBits/8 + (i % size)/8. -/
theorem claim_C2_external_decode_and_classify
    (wordBits : Nat) (isHead : Bool) (mem : Mem wordBits) (blockAddr : Nat)
    (isOnHeap : Nat → Bool) (words : Nat → Nat)
    (p : Nat) (hp : mem.readWord blockAddr = p) (hnz : p ≠ 0)
    (heven : p % 2 = 0) (hpos : 0 < mem.readWord p)
    (hheap : ∀ i, isOnHeap (words i) = true) :
    newGCObjectScanner false isHead wordBits mem blockAddr =
      Except.ok { index := 0, size := mem.readWord p, bitmap := 0,
                  bitmapAddr := some (p + wordBits / 8) } ∧
    ∀ i, scanResult isOnHeap wordBits mem words
        { index := 0, size := mem.readWord p, bitmap := 0,
          bitmapAddr := some (p + wordBits / 8) } i =
      Nat.testBit
        (mem.readByte (p + wordBits / 8 + (i % mem.readWord p) / 8))
        ((i % mem.readWord p) % 8) := by
  have hne1 : ¬ p % 2 = 1 := by omega
  have hsize : mem.readWord p ≤ 2 ^ wordBits := Nat.le_of_lt (mem.readWord_lt p)
  constructor
  · simp [newGCObjectScanner, hp, hnz, hne1]
  · intro i
    rw [scanResult_eq _ _ _ _ _ rfl hpos hsize i]
    simp [hheap i]

/-- Witness for C2: external descriptor at address 2048 with size 8 and
bitmap byte 0b101; in-heap classify calls 0, 1, 2 return true, false, true
and call 8 wraps around to true. -/
theorem claim_C2_witness :
    newGCObjectScanner false true 64 memExternal 0 =
      Except.ok { index := 0, size := 8, bitmap := 0,
                  bitmapAddr := some 2056 } ∧
    scanResult allHeap 64 memExternal zeroWords
      { index := 0, size := 8, bitmap := 0, bitmapAddr := some 2056 } 0 = true ∧
    scanResult allHeap 64 memExternal zeroWords
      { index := 0, size := 8, bitmap := 0, bitmapAddr := some 2056 } 1 = false ∧
    scanResult allHeap 64 memExternal zeroWords
      { index := 0, size := 8, bitmap := 0, bitmapAddr := some 2056 } 2 = true ∧
    scanResult allHeap 64 memExternal zeroWords
      { index := 0, size := 8, bitmap := 0, bitmapAddr := some 2056 } 8 = true := by
  have h := claim_C2_external_decode_and_classify 64 true memExternal 0
    allHeap zeroWords 2048 rfl (by decide) (by decide) (by decide) (fun i => rfl)
  exact ⟨h.1, (h.2 0).trans (by decide), (h.2 1).trans (by decide),
    (h.2 2).trans (by decide), (h.2 8).trans (by decide)⟩

/-- 64-bit memory whose layout word is 0 (unknown layout). -/
def memZero : Mem 64 where
  readWord := fun _ => 0
  readByte := fun _ => 0
  readWord_lt := fun _ => show (0 : Nat) < 2 ^ 64 by decide
  readByte_lt := fun _ => show (0 : Nat) < 256 by decide

/-- Claim C3: raw layout value 0 decodes to size 1 with an all-ones
effective bitmap, and every classify call returns exactly the
heap-membership test of the supplied word value, at every call position. -/
theorem claim_C3_unknown_layout
    (wordBits : Nat) (isHead : Bool) (mem : Mem wordBits) (blockAddr : Nat)
    (isOnHeap : Nat → Bool) (words : Nat → Nat)
    (h0 : mem.readWord blockAddr = 0) :
    newGCObjectScanner false isHead wordBits mem blockAddr =
      Except.ok { index := 0, size := 1, bitmap := 1, bitmapAddr := none } ∧
    ∀ i, scanResult isOnHeap wordBits mem words
        { index := 0, size := 1, bitmap := 1, bitmapAddr := none } i =
      isOnHeap (words i) := by
  constructor
  · simp [newGCObjectScanner, h0]
  · intro i
    rw [scanResult_eq _ _ _ _ _ rfl (by decide)
      (Nat.pos_pow_of_pos wordBits (by decide)) i]
    simp [Nat.mod_one, Nat.testBit_zero]

/-- Witness for C3: unknown layout, one call with an on-heap word value
returns true and one with an off-heap word value returns false. -/
theorem claim_C3_witness :
    newGCObjectScanner false true 64 memZero 0 =
      Except.ok { index := 0, size := 1, bitmap := 1, bitmapAddr := none } ∧
    scanResult allHeap 64 memZero zeroWords
      { index := 0, size := 1, bitmap := 1, bitmapAddr := none } 5 = true ∧
    scanResult noHeap 64 memZero zeroWords
      { index := 0, size := 1, bitmap := 1, bitmapAddr := none } 5 = false := by
  have h1 := claim_C3_unknown_layout 64 true memZero 0 allHeap zeroWords rfl
  have h2 := claim_C3_unknown_layout 64 true memZero 0 noHeap zeroWords rfl
  exact ⟨h1.1, h1.2 5, h2.2 5⟩

/-- 64-bit memory whose layout word is the odd value 1: inline layout with
a zero size bit-field. -/
def memLayoutOne : Mem 64 where
  readWord := fun _ => 1
  readByte := fun _ => 0
  readWord_lt := fun _ => show (1 : Nat) < 2 ^ 64 by decide
  readByte_lt := fun _ => show (0 : Nat) < 256 by decide

/-- Claim C4, counterexample: the odd raw layout value 1 on a 64-bit word
decodes successfully to a scanner with size = 0, so size = 0 is reachable
as a decoder output. -/
theorem claim_C4_counterexample :
    newGCObjectScanner false true 64 memLayoutOne 0 =
      Except.ok { index := 0, size := 0, bitmap := 0, bitmapAddr := none } := by
  rfl

/-- Claim C4 (amended): the decoder guarantees size ≥ 1 for the Unknown
(zero) layout; for inline layouts the size bit-field is copied out
unchecked, so an odd raw value with a zero size field (such as 1) decodes
to size = 0, and external layouts copy the stored word unchecked. -/
theorem claim_C4_amended (isHead : Bool) (wordBits : Nat) (mem : Mem wordBits)
    (blockAddr : Nat) (sc : gcObjectScanner)
    (h0 : mem.readWord blockAddr = 0)
    (hdec : newGCObjectScanner false isHead wordBits mem blockAddr =
      Except.ok sc) :
    1 ≤ sc.size := by
  simp [newGCObjectScanner, h0, Except.ok.injEq] at hdec
  rw [← hdec]

/-- Witness for C4 (amended): the zero layout on 64-bit memory decodes to
size 1. -/
theorem claim_C4_witness :
    1 ≤ ({ index := 0, size := 1, bitmap := 1,
           bitmapAddr := none } : gcObjectScanner).size :=
  claim_C4_amended true 64 memZero 0
    { index := 0, size := 1, bitmap := 1, bitmapAddr := none } rfl rfl

/-- Claim C5: for every scanner state, any layout kind and any cursor
position, classify returns false for a word value that fails the
heap-membership predicate, regardless of bitmap content. -/
theorem claim_C5_off_heap_false (isOnHeap : Nat → Bool) (wordBits : Nat)
    (mem : Mem wordBits) (scanner : gcObjectScanner)
    (word parent addrOfWord : Nat) (h : isOnHeap word = false) :
    (nextIsPointer isOnHeap wordBits mem scanner word parent addrOfWord).1 =
      false := by
  rw [nextIsPointer_fst, h, Bool.false_and]

/-- Witness for C5: with an all-rejecting heap predicate and an all-ones
bitmap, classify still returns false. -/
theorem claim_C5_witness :
    (nextIsPointer noHeap 64 memLayoutOne
      { index := 2, size := 5, bitmap := 31, bitmapAddr := none } 7 1 2).1 =
      false :=
  claim_C5_off_heap_false noHeap 64 memLayoutOne
    { index := 2, size := 5, bitmap := 31, bitmapAddr := none } 7 1 2 rfl

/-- Claim C6: pointerFree returns true exactly when no external descriptor
is present (bitmapAddr is nil) and the decoded bitmap is zero; whenever an
external descriptor is present it returns false. -/
theorem claim_C6_pointerFree_iff (scanner : gcObjectScanner) :
    pointerFree scanner = true ↔
      scanner.bitmapAddr = none ∧ scanner.bitmap = 0 := by
  unfold pointerFree
  cases h : scanner.bitmapAddr <;> simp [h]

/-- The size-field width returned for a supported word width is bounded by
the word width itself. -/
theorem sizeFieldBitsFor_le (wordBits s : Nat)
    (h : sizeFieldBitsFor wordBits = some s) : 2 ^ s ≤ 2 ^ wordBits := by
  unfold sizeFieldBitsFor at h
  split at h <;> cases h <;> decide

/-- Every successfully decoded scanner starts with cursor 0 and a size that
fits the native word. -/
theorem decodeOk_inv (gcAsserts isHead : Bool) (wordBits : Nat)
    (mem : Mem wordBits) (blockAddr : Nat) (sc : gcObjectScanner)
    (hdec : newGCObjectScanner gcAsserts isHead wordBits mem blockAddr =
      Except.ok sc) :
    sc.index = 0 ∧ sc.size ≤ 2 ^ wordBits := by
  unfold newGCObjectScanner at hdec
  split at hdec
  · exact absurd hdec (by simp)
  · dsimp only at hdec
    split at hdec
    · injection hdec with h
      subst h
      exact ⟨rfl, Nat.pos_pow_of_pos wordBits (by decide)⟩
    · split at hdec
      · split at hdec
        · exact absurd hdec (by simp)
        · rename_i sfb heq
          injection hdec with h
          subst h
          refine ⟨rfl, Nat.le_trans Nat.and_le_right ?_⟩
          rw [Nat.one_shiftLeft]
          exact Nat.le_trans (Nat.sub_le _ _)
            (sizeFieldBitsFor_le wordBits sfb heq)
      · injection hdec with h
        subst h
        exact ⟨rfl, Nat.le_of_lt (mem.readWord_lt _)⟩

/-- Claim C7: for every decoded scanner, after exactly size classify calls
the cursor returns to its starting value, and the classify result at call
index i equals the result at call index i + k*size whenever the word
values supplied at those two positions are equal. -/
theorem claim_C7_cycling (gcAsserts isHead : Bool) (wordBits : Nat)
    (mem : Mem wordBits) (blockAddr : Nat) (isOnHeap : Nat → Bool)
    (words : Nat → Nat) (sc : gcObjectScanner)
    (hdec : newGCObjectScanner gcAsserts isHead wordBits mem blockAddr =
      Except.ok sc) :
    (scanState isOnHeap wordBits mem words sc sc.size).index = sc.index ∧
    ∀ i k, words (i + k * sc.size) = words i →
      scanResult isOnHeap wordBits mem words sc (i + k * sc.size) =
        scanResult isOnHeap wordBits mem words sc i := by
  obtain ⟨hidx, hsize⟩ :=
    decodeOk_inv gcAsserts isHead wordBits mem blockAddr sc hdec
  rcases Nat.eq_zero_or_pos sc.size with hz | hpos
  · constructor
    · rw [hz, scanState]
    · intro i k hw
      rw [hz, Nat.mul_zero, Nat.add_zero]
  · constructor
    · rw [scanState_eq _ _ _ _ _ hidx hpos hsize, Nat.mod_self]
      simp [hidx]
    · intro i k hw
      rw [scanResult_eq _ _ _ _ _ hidx hpos hsize,
        scanResult_eq _ _ _ _ _ hidx hpos hsize,
        Nat.add_mul_mod_self_right, hw]

/-- Witness for C7: the inline scanner decoded from 647 (size 3) returns
to cursor 0 after 3 calls, and call 7 classifies like call 1. -/
theorem claim_C7_witness :
    (scanState allHeap 64 memInline647 zeroWords
      { index := 0, size := 3, bitmap := 5, bitmapAddr := none } 3).index = 0 ∧
    scanResult allHeap 64 memInline647 zeroWords
      { index := 0, size := 3, bitmap := 5, bitmapAddr := none } 7 =
    scanResult allHeap 64 memInline647 zeroWords
      { index := 0, size := 3, bitmap := 5, bitmapAddr := none } 1 := by
  have h := claim_C7_cycling false true 64 memInline647 0 allHeap zeroWords
    { index := 0, size := 3, bitmap := 5, bitmapAddr := none } rfl
  exact ⟨h.1, h.2 1 2 rfl⟩

/-- 8-bit memory: an unsupported native word width, with an odd layout
word. -/
def memWidth8 : Mem 8 where
  readWord := fun _ => 1
  readByte := fun _ => 0
  readWord_lt := fun _ => show (1 : Nat) < 2 ^ 8 by decide
  readByte_lt := fun _ => show (0 : Nat) < 256 by decide

/-- Claim C8: with assertions disabled (release configuration), the only
failure of the scanner is the unknown-pointer-size panic, raised at decode
time exactly for an odd (inline) layout on an unsupported native word
width; no other decode branch errors, and classify is a total function. -/
theorem claim_C8_error_conditions (isHead : Bool) (wordBits : Nat)
    (mem : Mem wordBits) (blockAddr : Nat) :
    (newGCObjectScanner false isHead wordBits mem blockAddr =
        Except.error RuntimeError.unknownPointerSize ↔
      mem.readWord blockAddr % 2 = 1 ∧ sizeFieldBitsFor wordBits = none) ∧
    ∀ e, newGCObjectScanner false isHead wordBits mem blockAddr =
        Except.error e → e = RuntimeError.unknownPointerSize := by
  rcases Nat.eq_zero_or_pos (mem.readWord blockAddr) with h0 | h0pos
  · constructor
    · simp [newGCObjectScanner, h0]
    · intro e he
      simp [newGCObjectScanner, h0] at he
  · have h0 : mem.readWord blockAddr ≠ 0 := Nat.pos_iff_ne_zero.mp h0pos
    rcases Nat.mod_two_eq_zero_or_one (mem.readWord blockAddr) with hpar | hpar
    · constructor
      · simp [newGCObjectScanner, h0, hpar]
      · intro e he
        simp [newGCObjectScanner, h0, hpar] at he
    · cases hsf : sizeFieldBitsFor wordBits
      · constructor
        · simp [newGCObjectScanner, h0, hpar, hsf]
        · intro e he
          simp [newGCObjectScanner, h0, hpar, hsf, Except.error.injEq] at he
          exact he.symm
      · constructor
        · simp [newGCObjectScanner, h0, hpar, hsf]
        · intro e he
          simp [newGCObjectScanner, h0, hpar, hsf] at he

/-- Witness for C8: an odd layout on an 8-bit word errors with the
unknown-pointer-size panic. -/
theorem claim_C8_witness :
    newGCObjectScanner false true 8 memWidth8 0 =
      Except.error RuntimeError.unknownPointerSize :=
  (claim_C8_error_conditions true 8 memWidth8 0).1.mpr ⟨rfl, rfl⟩

/-- Claim C9: the result and post-state of classify do not depend on the
parent (object base address) argument or the word-address argument. -/
theorem claim_C9_parent_addr_independent (isOnHeap : Nat → Bool)
    (wordBits : Nat) (mem : Mem wordBits) (scanner : gcObjectScanner)
    (word parent1 addrOfWord1 parent2 addrOfWord2 : Nat) :
    nextIsPointer isOnHeap wordBits mem scanner word parent1 addrOfWord1 =
      nextIsPointer isOnHeap wordBits mem scanner word parent2 addrOfWord2 :=
  rfl

/-- Claim C10: every classify call leaves the scanner's size, bitmap and
bitmapAddr fields unchanged, modifying at most the cursor index. -/
theorem claim_C10_frame (isOnHeap : Nat → Bool) (wordBits : Nat)
    (mem : Mem wordBits) (scanner : gcObjectScanner)
    (word parent addrOfWord : Nat) :
    ((nextIsPointer isOnHeap wordBits mem scanner word parent
        addrOfWord).2).size = scanner.size ∧
    ((nextIsPointer isOnHeap wordBits mem scanner word parent
        addrOfWord).2).bitmap = scanner.bitmap ∧
    ((nextIsPointer isOnHeap wordBits mem scanner word parent
        addrOfWord).2).bitmapAddr = scanner.bitmapAddr := by
  refine ⟨?_, ?_, ?_⟩ <;> rw [nextIsPointer_snd]

end TinyGoGC
